import Mathlib

/-!
# BBR telemetry reader: `get_bbr_info` of `src/bbr/bbr_linux.c`

A shallow embedding of the single C function of the repository.

* C `int` values (the descriptor, the return value, `errno`) are `Int`.
* The 32-bit words of the kernel record are `Nat`; every read of a word is
  reduced modulo `2^32`, every 64-bit operation modulo `2^64`.
* `getsockopt` is the boundary to the kernel: a function from the arguments of
  the call to what the call leaves behind (return value, `errno`, the buffer
  and the length).  The calls issued are recorded in the outcome.
* `double *` arguments are optional addresses (`none` is `NULL`) into a memory
  of doubles; a non-null pointer is taken to be valid.
* `(double)` applied to an unsigned integer is the IEEE-754 binary64 value
  nearest to it (ties to even), which is again an integer.
-/

namespace BbrLinux

/-! ## Constants of the C library and of the kernel headers -/

/-- Value of `EINVAL` on Linux (`asm-generic/errno-base.h`). -/
def EINVAL : Int := 22

/-- Value of `IPPROTO_TCP` (`netinet/in.h`). -/
def IPPROTO_TCP : Int := 6

/-- Value of `TCP_CC_INFO` (`netinet/tcp.h`). -/
def TCP_CC_INFO : Int := 26

/-- Modelled from the spec: `sizeof(struct tcpvegas_info)`, declared in
`linux/inet_diag.h`; four 32-bit words. -/
def sizeof_tcpvegas_info : Nat := 4 * 4

/-- Modelled from the spec: `sizeof(struct tcp_dctcp_info)`, declared in
`linux/inet_diag.h`; four 32-bit words. -/
def sizeof_tcp_dctcp_info : Nat := 4 * 4

/-- Modelled from the spec: `sizeof(struct tcp_bbr_info)`, declared in
`linux/inet_diag.h`; five 32-bit words. -/
def sizeof_tcp_bbr_info : Nat := 5 * 4

/-- Modelled from the spec: `sizeof(union tcp_cc_info)`, declared in
`linux/inet_diag.h`; a union is as large as its largest member. -/
def sizeof_tcp_cc_info : Nat :=
  max (max sizeof_tcpvegas_info sizeof_tcp_dctcp_info) sizeof_tcp_bbr_info

/-! ## The kernel record -/

/-- Modelled from the spec: `struct tcp_bbr_info` of `linux/inet_diag.h`, five
32-bit words: the two halves of the bandwidth, the minimum RTT and two
further words. -/
structure tcp_bbr_info where
  bbr_bw_lo : Nat
  bbr_bw_hi : Nat
  bbr_min_rtt : Nat
  bbr_pacing_gain : Nat
  bbr_cwnd_gain : Nat
deriving DecidableEq, Repr

/-- Modelled from the spec: `union tcp_cc_info` of `linux/inet_diag.h`.  Its
storage is that of its largest member, the BBR record, so the `bbr` view
covers all of it. -/
structure tcp_cc_info where
  bbr : tcp_bbr_info
deriving DecidableEq, Repr

/-- The buffer after `memset(&ti, 0, sizeof(ti))`. -/
def memset_zero : tcp_cc_info := ⟨⟨0, 0, 0, 0, 0⟩⟩

/-! ## The `getsockopt` boundary -/

/-- Arguments of one `getsockopt` call: descriptor, level, option name, the
contents of the buffer passed and the length passed in `*optlen`. -/
structure sockopt_call where
  fd : Int
  level : Int
  optname : Int
  optval : tcp_cc_info
  optlen : Nat
deriving DecidableEq, Repr

/-- What one `getsockopt` call leaves behind: its return value, the value of
`errno`, the contents of the buffer and the value of `*optlen` (a
`socklen_t`). -/
structure sockopt_reply where
  ret : Int
  errno : Int
  optval : tcp_cc_info
  optlen : Nat
deriving DecidableEq, Repr

/-- The kernel, as seen through `getsockopt`. -/
abbrev Kernel := sockopt_call → sockopt_reply

/-- POSIX: a call that returns `-1` has set `errno` to a nonzero code. -/
def posix_errno (r : sockopt_reply) : Prop := r.ret = -1 → r.errno ≠ 0

instance (r : sockopt_reply) : Decidable (posix_errno r) := by
  unfold posix_errno; infer_instance

/-! ## Doubles and the memory of the caller -/

/-- A value of C type `double`. -/
inductive CDouble where
  | finite (v : ℚ)
  | infinite (negative : Bool)
  | nan
deriving DecidableEq

/-- A `double *`: `none` is `NULL`. -/
abbrev Ptr := Option Nat

/-- The doubles of the caller, by address. -/
abbrev Memory := Nat → CDouble

/-- The assignment `*p = v`. -/
def Memory.store (m : Memory) (p : Nat) (v : CDouble) : Memory :=
  fun a => if a = p then v else m a

/-! ## Machine arithmetic -/

/-- A value as a `uint32_t`. -/
def u32 (x : Nat) : Nat := x % 2 ^ 32

/-- A value as a `uint64_t`. -/
def u64 (x : Nat) : Nat := x % 2 ^ 64

/-- The integer that `(double)n` denotes for an unsigned integer `n`: `n`
itself when it has at most 53 significant bits, else `n` rounded to 53
significant bits, to nearest, ties to even. -/
def round_binary64 (n : Nat) : Nat :=
  if n < 2 ^ 53 then n
  else
    let e := Nat.log2 n - 52
    let q := n / 2 ^ e
    let r := n % 2 ^ e
    let h := 2 ^ (e - 1)
    (if h < r ∨ (r = h ∧ q % 2 = 1) then q + 1 else q) * 2 ^ e

/-- The cast `(double)n` of an unsigned integer. -/
def to_double (n : Nat) : CDouble := CDouble.finite (round_binary64 n : ℚ)

/-- The expression
`(((uint64_t)ti.bbr.bbr_bw_hi) << 32) | ((uint64_t)ti.bbr.bbr_bw_lo)`
on the two words `hi` and `lo`. -/
def bw_magnitude (hi lo : Nat) : Nat :=
  u64 (u64 (u32 hi) <<< 32) ||| u64 (u32 lo)

/-! ## The function -/

/-- Result of a call of `get_bbr_info`: the value returned, the memory of the
caller afterwards, and the `getsockopt` calls issued, in order. -/
structure Outcome where
  ret : Int
  mem : Memory
  calls : List sockopt_call

/-- The function `get_bbr_info(fd, bw, rtt)`. -/
def get_bbr_info (k : Kernel) (mem : Memory) (fd : Int) (bw rtt : Ptr) : Outcome :=
  match bw, rtt with
  | none, _ => ⟨EINVAL, mem, []⟩
  | _, none => ⟨EINVAL, mem, []⟩
  | some pbw, some prtt =>
    let ti := memset_zero
    let len := sizeof_tcp_cc_info
    let call : sockopt_call := ⟨fd, IPPROTO_TCP, TCP_CC_INFO, ti, len⟩
    let r := k call
    if r.ret = -1 then ⟨r.errno, mem, [call]⟩
    else
      let ti := r.optval
      let len := r.optlen
      if len ≠ sizeof_tcp_bbr_info then ⟨EINVAL, mem, [call]⟩
      else
        let mem := mem.store pbw (to_double (bw_magnitude ti.bbr.bbr_bw_hi ti.bbr.bbr_bw_lo))
        let mem := mem.store prtt (to_double (u32 ti.bbr.bbr_min_rtt))
        ⟨0, mem, [call]⟩

/-- The one `getsockopt` call the function can issue on descriptor `fd`. -/
def bbr_query (fd : Int) : sockopt_call :=
  ⟨fd, 6, 26, ⟨⟨0, 0, 0, 0, 0⟩⟩, 20⟩

/-! ## Sample kernels and memories -/

/-- A kernel whose socket runs BBR: a 20-byte record with bandwidth halves
`hi = 1`, `lo = 0xFFFFFFFF` and minimum RTT `7`. -/
def kernel_bbr : Kernel :=
  fun _ => ⟨0, 0, ⟨⟨0xFFFFFFFF, 1, 7, 8, 9⟩⟩, 20⟩

/-- The kernel `kernel_bbr` with other values in the two further words. -/
def kernel_bbr_gains : Kernel :=
  fun _ => ⟨0, 0, ⟨⟨0xFFFFFFFF, 1, 7, 100, 200⟩⟩, 20⟩

/-- A kernel whose socket runs an algorithm with a four-word record. -/
def kernel_vegas : Kernel :=
  fun _ => ⟨0, 0, ⟨⟨1, 2, 3, 4, 0⟩⟩, 16⟩

/-- A kernel that rejects the descriptor: `-1` with `errno = EBADF = 9`; the
buffer and the length stay as passed. -/
def kernel_ebadf : Kernel :=
  fun c => ⟨-1, 9, c.optval, c.optlen⟩

/-- A kernel that rejects the query: `-1` with `errno = EINVAL`; the buffer and
the length stay as passed. -/
def kernel_einval : Kernel :=
  fun c => ⟨-1, EINVAL, c.optval, c.optlen⟩

/-- A memory in which every double is `-1`. -/
def mem_init : Memory := fun _ => CDouble.finite (-1)

/-! ## Lemmas on the machine arithmetic -/

theorem u32_of_lt {x : Nat} (h : x < 2 ^ 32) : u32 x = x :=
  Nat.mod_eq_of_lt h

theorem u64_of_lt {x : Nat} (h : x < 2 ^ 64) : u64 x = x :=
  Nat.mod_eq_of_lt h

theorem shift_hi_eq {hi : Nat} (h : hi < 2 ^ 32) :
    u64 (u64 (u32 hi) <<< 32) = hi * 2 ^ 32 := by
  have h1 : u64 (u32 hi) = hi := by
    rw [u32_of_lt h]; exact u64_of_lt (by omega)
  rw [h1, Nat.shiftLeft_eq]
  exact u64_of_lt (by omega)

theorem bw_magnitude_eq {hi lo : Nat} (hhi : hi < 2 ^ 32) (hlo : lo < 2 ^ 32) :
    bw_magnitude hi lo = hi * 2 ^ 32 + lo := by
  unfold bw_magnitude
  have h2 : u64 (u32 lo) = lo := by
    rw [u32_of_lt hlo]; exact u64_of_lt (by omega)
  rw [shift_hi_eq hhi, h2, Nat.mul_comm hi (2 ^ 32)]
  exact (Nat.mul_add_lt_is_or hlo hi).symm

/-- The largest magnitude is widened to `2^64`: the nearest double lies above
every `uint64_t`. -/
theorem round_binary64_top :
    round_binary64 (bw_magnitude 0xFFFFFFFF 0xFFFFFFFF) = 2 ^ 64 := by
  have hm : bw_magnitude 0xFFFFFFFF 0xFFFFFFFF = 2 ^ 64 - 1 := by decide
  have hlog : Nat.log2 (2 ^ 64 - 1) = 63 := by
    have h1 : 63 ≤ Nat.log2 (2 ^ 64 - 1) := (Nat.le_log2 (by norm_num)).mpr (by norm_num)
    have h2 : Nat.log2 (2 ^ 64 - 1) < 64 := (Nat.log2_lt (by norm_num)).mpr (by norm_num)
    omega
  rw [hm]
  unfold round_binary64
  rw [if_neg (by norm_num)]
  simp only [hlog]
  decide

/-! ## The four paths of the function -/

theorem bbr_query_eq (fd : Int) :
    bbr_query fd = ⟨fd, IPPROTO_TCP, TCP_CC_INFO, memset_zero, sizeof_tcp_cc_info⟩ := rfl

theorem get_bbr_info_null (k : Kernel) (mem : Memory) (fd : Int) (bw rtt : Ptr)
    (h : bw = none ∨ rtt = none) :
    get_bbr_info k mem fd bw rtt = ⟨EINVAL, mem, []⟩ := by
  rcases h with h | h
  · subst h; cases rtt <;> rfl
  · subst h; cases bw <;> rfl

theorem get_bbr_info_failed (k : Kernel) (mem : Memory) (fd : Int) (pbw prtt : Nat)
    (h : (k (bbr_query fd)).ret = -1) :
    get_bbr_info k mem fd (some pbw) (some prtt)
      = ⟨(k (bbr_query fd)).errno, mem, [bbr_query fd]⟩ := by
  rw [bbr_query_eq] at h ⊢
  simp [get_bbr_info, h]

theorem get_bbr_info_mismatch (k : Kernel) (mem : Memory) (fd : Int) (pbw prtt : Nat)
    (h : (k (bbr_query fd)).ret ≠ -1) (hlen : (k (bbr_query fd)).optlen ≠ 20) :
    get_bbr_info k mem fd (some pbw) (some prtt) = ⟨EINVAL, mem, [bbr_query fd]⟩ := by
  rw [bbr_query_eq] at h hlen ⊢
  have hlen2 : (k ⟨fd, IPPROTO_TCP, TCP_CC_INFO, memset_zero, sizeof_tcp_cc_info⟩).optlen
      ≠ sizeof_tcp_bbr_info := hlen
  simp [get_bbr_info, h, hlen2]

theorem get_bbr_info_decoded (k : Kernel) (mem : Memory) (fd : Int) (pbw prtt : Nat)
    (h : (k (bbr_query fd)).ret ≠ -1) (hlen : (k (bbr_query fd)).optlen = 20) :
    get_bbr_info k mem fd (some pbw) (some prtt)
      = ⟨0,
         (mem.store pbw (to_double (bw_magnitude (k (bbr_query fd)).optval.bbr.bbr_bw_hi
            (k (bbr_query fd)).optval.bbr.bbr_bw_lo))).store prtt
           (to_double (u32 (k (bbr_query fd)).optval.bbr.bbr_min_rtt)),
         [bbr_query fd]⟩ := by
  rw [bbr_query_eq] at h hlen ⊢
  have hlen2 : (k ⟨fd, IPPROTO_TCP, TCP_CC_INFO, memset_zero, sizeof_tcp_cc_info⟩).optlen
      = sizeof_tcp_bbr_info := hlen
  simp [get_bbr_info, h, hlen2]

theorem EINVAL_ne_zero : EINVAL ≠ 0 := by decide

/-- Every call takes exactly one of the four paths. -/
theorem get_bbr_info_cases (k : Kernel) (mem : Memory) (fd : Int) (bw rtt : Ptr) :
    ((bw = none ∨ rtt = none) ∧ get_bbr_info k mem fd bw rtt = ⟨EINVAL, mem, []⟩) ∨
    (∃ pbw prtt : Nat, bw = some pbw ∧ rtt = some prtt ∧
      (((k (bbr_query fd)).ret = -1 ∧
          get_bbr_info k mem fd bw rtt = ⟨(k (bbr_query fd)).errno, mem, [bbr_query fd]⟩) ∨
       ((k (bbr_query fd)).ret ≠ -1 ∧ (k (bbr_query fd)).optlen ≠ 20 ∧
          get_bbr_info k mem fd bw rtt = ⟨EINVAL, mem, [bbr_query fd]⟩) ∨
       ((k (bbr_query fd)).ret ≠ -1 ∧ (k (bbr_query fd)).optlen = 20 ∧
          get_bbr_info k mem fd bw rtt
            = ⟨0,
               (mem.store pbw (to_double (bw_magnitude (k (bbr_query fd)).optval.bbr.bbr_bw_hi
                  (k (bbr_query fd)).optval.bbr.bbr_bw_lo))).store prtt
                 (to_double (u32 (k (bbr_query fd)).optval.bbr.bbr_min_rtt)),
               [bbr_query fd]⟩))) := by
  cases hbw : bw with
  | none => exact Or.inl ⟨Or.inl rfl, get_bbr_info_null k mem fd none rtt (Or.inl rfl)⟩
  | some pbw =>
    cases hrtt : rtt with
    | none => exact Or.inl ⟨Or.inr rfl, get_bbr_info_null k mem fd (some pbw) none (Or.inr rfl)⟩
    | some prtt =>
      refine Or.inr ⟨pbw, prtt, rfl, rfl, ?_⟩
      by_cases hq : (k (bbr_query fd)).ret = -1
      · exact Or.inl ⟨hq, get_bbr_info_failed k mem fd pbw prtt hq⟩
      · by_cases hlen : (k (bbr_query fd)).optlen = 20
        · exact Or.inr (Or.inr ⟨hq, hlen, get_bbr_info_decoded k mem fd pbw prtt hq hlen⟩)
        · exact Or.inr (Or.inl ⟨hq, hlen, get_bbr_info_mismatch k mem fd pbw prtt hq hlen⟩)

/-- C2: for 32-bit words `hi` and `lo` the magnitude computed is
`hi * 2^32 + lo`: the shift stays below `2^64` and the union loses no bit; the
four pairs of the specification give the four values it lists. -/
theorem bw_magnitude_value (hi lo : Nat) (hhi : hi < 2 ^ 32) (hlo : lo < 2 ^ 32) :
    bw_magnitude hi lo = hi * 2 ^ 32 + lo ∧
    u64 (u32 hi) <<< 32 < 2 ^ 64 ∧
    hi * 2 ^ 32 + lo < 2 ^ 64 ∧
    bw_magnitude 0 0 = 0 ∧
    bw_magnitude 1 0 = 0x100000000 ∧
    bw_magnitude 1 0xFFFFFFFF = 0x1FFFFFFFF ∧
    bw_magnitude 0xFFFFFFFF 0xFFFFFFFF = 0xFFFFFFFFFFFFFFFF := by
  refine ⟨bw_magnitude_eq hhi hlo, ?_, by omega, by decide, by decide, by decide, by decide⟩
  rw [u32_of_lt hhi, u64_of_lt (by omega), Nat.shiftLeft_eq]
  omega

/-- Witness of C2 at `hi = 1`, `lo = 0xFFFFFFFF`. -/
theorem bw_magnitude_value_witness :
    (1 : Nat) < 2 ^ 32 ∧ (0xFFFFFFFF : Nat) < 2 ^ 32 ∧
    bw_magnitude 1 0xFFFFFFFF = 1 * 2 ^ 32 + 0xFFFFFFFF :=
  ⟨by decide, by decide, (bw_magnitude_value 1 0xFFFFFFFF (by decide) (by decide)).1⟩

/-- C3: when either output pointer is null the call returns the error code of
the argument check and issues no kernel query, whatever the descriptor and
whatever the kernel would have answered; the memory is untouched. -/
theorem get_bbr_info_null_argument (k : Kernel) (mem : Memory) (fd : Int) (bw rtt : Ptr)
    (h : bw = none ∨ rtt = none) :
    (get_bbr_info k mem fd bw rtt).ret = EINVAL ∧
    (get_bbr_info k mem fd bw rtt).calls = [] ∧
    (get_bbr_info k mem fd bw rtt).calls.length = 0 ∧
    (get_bbr_info k mem fd bw rtt).mem = mem := by
  rw [get_bbr_info_null k mem fd bw rtt h]
  exact ⟨rfl, rfl, rfl, rfl⟩

/-- Witness of C3: a null `rtt` on a descriptor the kernel would reject. -/
theorem get_bbr_info_null_argument_witness :
    ((some 0 : Ptr) = none ∨ (none : Ptr) = none) ∧
    (get_bbr_info kernel_ebadf mem_init (-1) (some 0) none).ret = EINVAL ∧
    (get_bbr_info kernel_ebadf mem_init (-1) (some 0) none).calls = [] :=
  ⟨Or.inr rfl,
    (get_bbr_info_null_argument kernel_ebadf mem_init (-1) (some 0) none (Or.inr rfl)).1,
    (get_bbr_info_null_argument kernel_ebadf mem_init (-1) (some 0) none (Or.inr rfl)).2.1⟩

/-- Counterexample to C4: a null output slot, a four-word record and a query
that failed with `errno = EINVAL` all make the call return the same value, so
the result alone does not tell the three errors apart. -/
theorem get_bbr_info_errors_coincide :
    (kernel_vegas (bbr_query 3)).ret ≠ -1 ∧
    (kernel_vegas (bbr_query 3)).optlen ≠ 20 ∧
    (kernel_einval (bbr_query 3)).ret = -1 ∧
    ¬ ((get_bbr_info kernel_vegas mem_init 3 (some 0) (some 1)).ret
        ≠ (get_bbr_info kernel_vegas mem_init 3 none (some 1)).ret) ∧
    ¬ ((get_bbr_info kernel_einval mem_init 3 (some 0) (some 1)).ret
        ≠ (get_bbr_info kernel_vegas mem_init 3 none (some 1)).ret) ∧
    ¬ ((get_bbr_info kernel_einval mem_init 3 (some 0) (some 1)).ret
        ≠ (get_bbr_info kernel_vegas mem_init 3 (some 0) (some 1)).ret) := by
  decide

/-- C4, amended: the value returned is `0` exactly on the success path (both
slots present, query succeeded, length 20), provided a failed query leaves a
nonzero `errno`; a null slot and a length mismatch both return `EINVAL`, a
failed query returns its `errno`; a nonzero result other than `EINVAL` can
only come from a failed query. -/
theorem get_bbr_info_result_codes (k : Kernel) (mem : Memory) (fd : Int) (bw rtt : Ptr)
    (hposix : posix_errno (k (bbr_query fd))) :
    ((get_bbr_info k mem fd bw rtt).ret = 0 ↔
      (bw ≠ none ∧ rtt ≠ none ∧ (k (bbr_query fd)).ret ≠ -1 ∧
        (k (bbr_query fd)).optlen = 20)) ∧
    (bw = none ∨ rtt = none → (get_bbr_info k mem fd bw rtt).ret = EINVAL) ∧
    (bw ≠ none → rtt ≠ none → (k (bbr_query fd)).ret = -1 →
      (get_bbr_info k mem fd bw rtt).ret = (k (bbr_query fd)).errno) ∧
    (bw ≠ none → rtt ≠ none → (k (bbr_query fd)).ret ≠ -1 →
      (k (bbr_query fd)).optlen ≠ 20 → (get_bbr_info k mem fd bw rtt).ret = EINVAL) ∧
    ((get_bbr_info k mem fd bw rtt).ret ≠ 0 → (get_bbr_info k mem fd bw rtt).ret ≠ EINVAL →
      bw ≠ none ∧ rtt ≠ none ∧ (k (bbr_query fd)).ret = -1 ∧
        (get_bbr_info k mem fd bw rtt).ret = (k (bbr_query fd)).errno) ∧
    EINVAL ≠ 0 := by
  rcases get_bbr_info_cases k mem fd bw rtt with ⟨hnull, h⟩ | ⟨pbw, prtt, hbw, hrtt, h⟩
  · rw [h]
    refine ⟨⟨fun h0 => absurd h0 EINVAL_ne_zero, ?_⟩, fun _ => rfl, ?_, ?_, ?_, EINVAL_ne_zero⟩
    · rintro ⟨h1, h2, -, -⟩
      rcases hnull with hn | hn
      · exact absurd hn h1
      · exact absurd hn h2
    · intro h1 h2
      rcases hnull with hn | hn
      · exact absurd hn h1
      · exact absurd hn h2
    · intro h1 h2
      rcases hnull with hn | hn
      · exact absurd hn h1
      · exact absurd hn h2
    · intro _ hne; exact absurd rfl hne
  · have hb : bw ≠ none := by rw [hbw]; exact Option.some_ne_none pbw
    have hr : rtt ≠ none := by rw [hrtt]; exact Option.some_ne_none prtt
    have hnn : ¬ (bw = none ∨ rtt = none) := fun hn => hn.elim hb hr
    rcases h with ⟨hq, h⟩ | ⟨hq, hlen, h⟩ | ⟨hq, hlen, h⟩
    · rw [h]
      refine ⟨⟨fun h0 => absurd h0 (hposix hq), ?_⟩, fun hn => absurd hn hnn, fun _ _ _ => rfl,
        fun _ _ hq2 => absurd hq hq2, fun _ _ => ⟨hb, hr, hq, rfl⟩, EINVAL_ne_zero⟩
      rintro ⟨-, -, h3, -⟩
      exact absurd hq h3
    · rw [h]
      refine ⟨⟨fun h0 => absurd h0 EINVAL_ne_zero, ?_⟩, fun _ => rfl,
        fun _ _ hq2 => absurd hq2 hq, fun _ _ _ _ => rfl, fun _ hne => absurd rfl hne,
        EINVAL_ne_zero⟩
      rintro ⟨-, -, -, h4⟩
      exact absurd h4 hlen
    · rw [h]
      exact ⟨⟨fun _ => ⟨hb, hr, hq, hlen⟩, fun _ => rfl⟩, fun hn => absurd hn hnn,
        fun _ _ hq2 => absurd hq2 hq, fun _ _ _ hl => absurd hlen hl,
        fun hne => absurd rfl hne, EINVAL_ne_zero⟩

/-- Witness of C4, amended: a descriptor the kernel rejects with `EBADF`. -/
theorem get_bbr_info_result_codes_witness :
    posix_errno (kernel_ebadf (bbr_query 3)) ∧
    (kernel_ebadf (bbr_query 3)).ret = -1 ∧
    (get_bbr_info kernel_ebadf mem_init 3 (some 0) (some 1)).ret = 9 :=
  ⟨by decide, by decide,
    (get_bbr_info_result_codes kernel_ebadf mem_init 3 (some 0) (some 1) (by decide)).2.2.1
      (by decide) (by decide) (by decide)⟩

/-- C5: on every call that does not return success, and on each of the three
error conditions (null slot, failed query, length other than 20), the memory
of the caller after the call is the memory before it: no slot is zeroed and
none is written alone. -/
theorem get_bbr_info_error_frame (k : Kernel) (mem : Memory) (fd : Int) (bw rtt : Ptr)
    (h : (get_bbr_info k mem fd bw rtt).ret ≠ 0 ∨ bw = none ∨ rtt = none ∨
      (k (bbr_query fd)).ret = -1 ∨ (k (bbr_query fd)).optlen ≠ 20) :
    (get_bbr_info k mem fd bw rtt).mem = mem ∧
    ∀ a : Nat, (get_bbr_info k mem fd bw rtt).mem a = mem a := by
  have key : (get_bbr_info k mem fd bw rtt).mem = mem := by
    rcases get_bbr_info_cases k mem fd bw rtt with ⟨-, h1⟩ | ⟨pbw, prtt, -, -, h1⟩
    · rw [h1]
    · rcases h1 with ⟨-, h1⟩ | ⟨-, -, h1⟩ | ⟨hq, hlen, h1⟩
      · rw [h1]
      · rw [h1]
      · rcases h with h | h | h | h | h
        · rw [h1] at h; exact absurd rfl h
        · rw [get_bbr_info_null k mem fd bw rtt (Or.inl h)]
        · rw [get_bbr_info_null k mem fd bw rtt (Or.inr h)]
        · exact absurd h hq
        · exact absurd hlen h
  exact ⟨key, fun a => by rw [key]⟩

/-- Witness of C5: a four-word record leaves both slots at their old value. -/
theorem get_bbr_info_error_frame_witness :
    (get_bbr_info kernel_vegas mem_init 3 (some 0) (some 1)).ret ≠ 0 ∧
    (get_bbr_info kernel_vegas mem_init 3 (some 0) (some 1)).mem 0 = mem_init 0 ∧
    (get_bbr_info kernel_vegas mem_init 3 (some 0) (some 1)).mem 1 = mem_init 1 :=
  ⟨by decide,
    (get_bbr_info_error_frame kernel_vegas mem_init 3 (some 0) (some 1)
      (Or.inl (by decide))).2 0,
    (get_bbr_info_error_frame kernel_vegas mem_init 3 (some 0) (some 1)
      (Or.inl (by decide))).2 1⟩

/-- C6: with both slots present and a query that failed with a nonzero `errno`,
the call returns that `errno`, which is not the success value; the outcome is
fixed by it alone (neither the length nor the buffer is looked at), the memory
is untouched, and the query was issued once. -/
theorem get_bbr_info_system_error (k : Kernel) (mem : Memory) (fd : Int) (pbw prtt : Nat)
    (hq : (k (bbr_query fd)).ret = -1) (herrno : (k (bbr_query fd)).errno ≠ 0) :
    (get_bbr_info k mem fd (some pbw) (some prtt)).ret = (k (bbr_query fd)).errno ∧
    (get_bbr_info k mem fd (some pbw) (some prtt)).ret ≠ 0 ∧
    (get_bbr_info k mem fd (some pbw) (some prtt)).mem = mem ∧
    (get_bbr_info k mem fd (some pbw) (some prtt)).calls = [bbr_query fd] ∧
    (∀ k2 : Kernel, (k2 (bbr_query fd)).ret = -1 →
      (k2 (bbr_query fd)).errno = (k (bbr_query fd)).errno →
      get_bbr_info k2 mem fd (some pbw) (some prtt)
        = get_bbr_info k mem fd (some pbw) (some prtt)) := by
  have h := get_bbr_info_failed k mem fd pbw prtt hq
  refine ⟨by rw [h], by rw [h]; exact herrno, by rw [h], by rw [h], ?_⟩
  intro k2 hq2 he2
  rw [h, get_bbr_info_failed k2 mem fd pbw prtt hq2, he2]

/-- Witness of C6: a descriptor the kernel rejects with `EBADF`. -/
theorem get_bbr_info_system_error_witness :
    (kernel_ebadf (bbr_query (-1))).ret = -1 ∧
    (kernel_ebadf (bbr_query (-1))).errno ≠ 0 ∧
    (get_bbr_info kernel_ebadf mem_init (-1) (some 0) (some 1)).ret = 9 ∧
    (get_bbr_info kernel_ebadf mem_init (-1) (some 0) (some 1)).mem = mem_init :=
  ⟨by decide, by decide,
    (get_bbr_info_system_error kernel_ebadf mem_init (-1) 0 1 (by decide) (by decide)).1,
    (get_bbr_info_system_error kernel_ebadf mem_init (-1) 0 1 (by decide) (by decide)).2.2.1⟩

/-- C8: the reconstruction is an exact round trip: for 32-bit words the
magnitude `m` has `m >> 32 = hi` and `m mod 2^32 = lo`, so records with
different pairs of halves never give the same magnitude. -/
theorem bw_magnitude_round_trip (hi lo : Nat) (hhi : hi < 2 ^ 32) (hlo : lo < 2 ^ 32) :
    bw_magnitude hi lo >>> 32 = hi ∧
    bw_magnitude hi lo % 2 ^ 32 = lo ∧
    (∀ hi2 lo2 : Nat, hi2 < 2 ^ 32 → lo2 < 2 ^ 32 →
      bw_magnitude hi lo = bw_magnitude hi2 lo2 → hi = hi2 ∧ lo = lo2) := by
  have e := bw_magnitude_eq hhi hlo
  refine ⟨?_, ?_, ?_⟩
  · rw [e, Nat.shiftRight_eq_div_pow]; omega
  · rw [e]; omega
  · intro hi2 lo2 hhi2 hlo2 heq
    rw [e, bw_magnitude_eq hhi2 hlo2] at heq
    omega

/-- Witness of C8 at `hi = 1`, `lo = 0xFFFFFFFF`. -/
theorem bw_magnitude_round_trip_witness :
    (1 : Nat) < 2 ^ 32 ∧ (0xFFFFFFFF : Nat) < 2 ^ 32 ∧
    bw_magnitude 1 0xFFFFFFFF >>> 32 = 1 ∧
    bw_magnitude 1 0xFFFFFFFF % 2 ^ 32 = 0xFFFFFFFF :=
  ⟨by decide, by decide,
    (bw_magnitude_round_trip 1 0xFFFFFFFF (by decide) (by decide)).1,
    (bw_magnitude_round_trip 1 0xFFFFFFFF (by decide) (by decide)).2.1⟩

/-- C9: two successful kernel responses of length 20 that agree on the
bandwidth-high, bandwidth-low and min-rtt words give the same outcome: the
same value returned and the same memory, whatever the two further words. -/
theorem get_bbr_info_ignores_further_words (k1 k2 : Kernel) (mem : Memory) (fd : Int)
    (bw rtt : Ptr)
    (hq1 : (k1 (bbr_query fd)).ret ≠ -1) (hq2 : (k2 (bbr_query fd)).ret ≠ -1)
    (hlen1 : (k1 (bbr_query fd)).optlen = 20) (hlen2 : (k2 (bbr_query fd)).optlen = 20)
    (hhi : (k1 (bbr_query fd)).optval.bbr.bbr_bw_hi = (k2 (bbr_query fd)).optval.bbr.bbr_bw_hi)
    (hlo : (k1 (bbr_query fd)).optval.bbr.bbr_bw_lo = (k2 (bbr_query fd)).optval.bbr.bbr_bw_lo)
    (hrtt : (k1 (bbr_query fd)).optval.bbr.bbr_min_rtt
      = (k2 (bbr_query fd)).optval.bbr.bbr_min_rtt) :
    get_bbr_info k1 mem fd bw rtt = get_bbr_info k2 mem fd bw rtt ∧
    (get_bbr_info k1 mem fd bw rtt).ret = (get_bbr_info k2 mem fd bw rtt).ret ∧
    (get_bbr_info k1 mem fd bw rtt).mem = (get_bbr_info k2 mem fd bw rtt).mem := by
  have key : get_bbr_info k1 mem fd bw rtt = get_bbr_info k2 mem fd bw rtt := by
    cases bw with
    | none => rw [get_bbr_info_null k1 mem fd none rtt (Or.inl rfl),
        get_bbr_info_null k2 mem fd none rtt (Or.inl rfl)]
    | some pbw =>
      cases rtt with
      | none => rw [get_bbr_info_null k1 mem fd (some pbw) none (Or.inr rfl),
          get_bbr_info_null k2 mem fd (some pbw) none (Or.inr rfl)]
      | some prtt =>
        rw [get_bbr_info_decoded k1 mem fd pbw prtt hq1 hlen1,
          get_bbr_info_decoded k2 mem fd pbw prtt hq2 hlen2, hhi, hlo, hrtt]
  exact ⟨key, by rw [key], by rw [key]⟩

/-- Witness of C9: two BBR records that differ in the two further words only. -/
theorem get_bbr_info_ignores_further_words_witness :
    (kernel_bbr (bbr_query 3)).optval.bbr.bbr_pacing_gain
      ≠ (kernel_bbr_gains (bbr_query 3)).optval.bbr.bbr_pacing_gain ∧
    (kernel_bbr (bbr_query 3)).optval.bbr.bbr_cwnd_gain
      ≠ (kernel_bbr_gains (bbr_query 3)).optval.bbr.bbr_cwnd_gain ∧
    get_bbr_info kernel_bbr mem_init 3 (some 0) (some 1)
      = get_bbr_info kernel_bbr_gains mem_init 3 (some 0) (some 1) :=
  ⟨by decide, by decide,
    (get_bbr_info_ignores_further_words kernel_bbr kernel_bbr_gains mem_init 3 (some 0) (some 1)
      (by decide) (by decide) (by decide) (by decide) (by decide) (by decide) (by decide)).1⟩

/-- C10: every kernel query the call issues is on the descriptor given, asks
for `TCP_CC_INFO` at level `IPPROTO_TCP`, passes a buffer that is entirely zero
and passes as length the capacity of the buffer, the size of the largest record
`max(16, 16, 20) = 20`, which is not below the size of the BBR record; at most
one query is issued. -/
theorem get_bbr_info_query_arguments (k : Kernel) (mem : Memory) (fd : Int) (bw rtt : Ptr)
    (c : sockopt_call) (hc : c ∈ (get_bbr_info k mem fd bw rtt).calls) :
    c.fd = fd ∧ c.level = IPPROTO_TCP ∧ c.optname = TCP_CC_INFO ∧
    c.optval.bbr = ⟨0, 0, 0, 0, 0⟩ ∧
    c.optlen = sizeof_tcp_cc_info ∧
    sizeof_tcp_cc_info = max (max sizeof_tcpvegas_info sizeof_tcp_dctcp_info) sizeof_tcp_bbr_info ∧
    sizeof_tcp_cc_info = max (max 16 16) 20 ∧
    sizeof_tcp_cc_info = 20 ∧
    sizeof_tcp_bbr_info ≤ c.optlen ∧
    (get_bbr_info k mem fd bw rtt).calls.length ≤ 1 := by
  have hall : c = bbr_query fd ∧ (get_bbr_info k mem fd bw rtt).calls.length ≤ 1 := by
    rcases get_bbr_info_cases k mem fd bw rtt with ⟨-, h⟩ | ⟨pbw, prtt, -, -, h⟩
    · rw [h] at hc; simp at hc
    · rcases h with ⟨-, h⟩ | ⟨-, -, h⟩ | ⟨-, -, h⟩ <;>
      · rw [h] at hc ⊢
        exact ⟨List.mem_singleton.mp hc, le_refl _⟩
  obtain ⟨hceq, hlen⟩ := hall
  subst hceq
  exact ⟨rfl, rfl, rfl, rfl, rfl, rfl, rfl, rfl, Nat.le_refl 20, hlen⟩

/-- Witness of C10: the query issued for a BBR socket. -/
theorem get_bbr_info_query_arguments_witness :
    bbr_query 3 ∈ (get_bbr_info kernel_bbr mem_init 3 (some 0) (some 1)).calls ∧
    (bbr_query 3).optval.bbr = ⟨0, 0, 0, 0, 0⟩ ∧
    (bbr_query 3).optlen = sizeof_tcp_cc_info :=
  ⟨by decide,
    (get_bbr_info_query_arguments kernel_bbr mem_init 3 (some 0) (some 1) (bbr_query 3)
      (by decide)).2.2.2.1,
    (get_bbr_info_query_arguments kernel_bbr mem_init 3 (some 0) (some 1) (bbr_query 3)
      (by decide)).2.2.2.2.1⟩

end BbrLinux
